import Mathlib

/- Shallow embedding of the VRM armature synthesizer (misc/make_armature.py)
   and of the utilities in io_scene_vrm/vrm_types.py.  Python floats are
   modelled as exact rationals; where a claim depends on 32-bit transport
   precision, an explicit round-to-nearest-even rounding function on ℚ models
   the struct.pack/unpack float32 round-trip. -/

/-- A 3-component position vector (model of the Python float triples used for
bone head/tail positions). -/
structure Vec3 where
  x : ℚ
  y : ℚ
  z : ℚ
deriving DecidableEq, Repr

/-- Squared head-to-tail distance; two nonnegative lengths are equal iff their
squares are, so length claims are stated on squares in the exact model. -/
def sqDist (a b : Vec3) : ℚ :=
  (a.x - b.x) ^ 2 + (a.y - b.y) ^ 2 + (a.z - b.z) ^ 2

/-- Model of `[pos * axis for pos, axis in zip(right_head_pos, (-1, 1, 1))]`
in `x_mirror_bones_add`: negate the lateral (x) coordinate. -/
def mirrorX (v : Vec3) : Vec3 :=
  ⟨v.x * (-1), v.y * 1, v.z * 1⟩

/-- Model of `x_add(pos_a, add_x)` from make_armature.py. -/
def x_add (v : Vec3) (a : ℚ) : Vec3 :=
  ⟨v.x + a, v.y + 0, v.z + 0⟩

/-- Model of `y_add(pos_a, add_y)` from make_armature.py. -/
def y_add (v : Vec3) (a : ℚ) : Vec3 :=
  ⟨v.x + 0, v.y + a, v.z + 0⟩

/-- Model of an armature edit bone as configured by `bone_add`
(make_armature.py lines 117-128).  The roll is recorded in degrees as passed
to `bone_add`; the source stores `radians(roll)`, a strictly monotone
reparametrization that no claim depends on.  The parent is recorded by name. -/
structure EditBone where
  name : String
  head : Vec3
  tail : Vec3
  head_radius : ℚ
  tail_radius : ℚ
  envelope_distance : ℚ
  roll : ℚ
  parent : Option String
deriving DecidableEq, Repr

/-- The `bone_dic` dictionary: insertion-ordered association list from bone
name to bone, as a Python dict. -/
abbrev BoneDic := List (String × EditBone)

/-- Python `dict.update({k: v})`: if `k` is present, its value is replaced in
place (insertion order kept); otherwise the pair is appended. -/
def dictUpdate (d : List (String × EditBone)) (k : String) (v : EditBone) :
    List (String × EditBone) :=
  match d with
  | [] => [(k, v)]
  | (k₂, v₂) :: rest =>
      if k₂ = k then (k, v) :: rest else (k₂, v₂) :: dictUpdate rest k v

/-- Model of `bone_add` (make_armature.py lines 117-128): build the edit bone,
register it in `bone_dic` via `dict.update`, and return it.  The source has no
duplicate-name check and no raise statement; `armature.data.edit_bones.new`
never fails either (Blender renames on collision), so the model is total. -/
def bone_add (dic : BoneDic) (name : String) (head_pos tail_pos : Vec3)
    (parent_bone : Option String) (radius : ℚ) (roll : ℚ) :
    EditBone × BoneDic :=
  let added_bone : EditBone :=
    { name := name
      head := head_pos
      tail := tail_pos
      head_radius := radius
      tail_radius := radius
      envelope_distance := 1 / 100
      roll := roll
      parent := parent_bone }
  (added_bone, dictUpdate dic name added_bone)

/-- Model of `x_mirror_bones_add` (make_armature.py lines 131-163): pick the
side rolls from `bone_type`, create the left bone first at the unmirrored
right-side coordinates under `base_name + "_L"`, then the right bone at the
x-negated coordinates under `base_name + "_R"`. -/
def x_mirror_bones_add (dic : BoneDic) (base_name : String)
    (right_head_pos right_tail_pos : Vec3)
    (parent_bones : Option String × Option String) (radius : ℚ)
    (bone_type : String) : (EditBone × EditBone) × BoneDic :=
  let right_roll : ℚ := if bone_type = "arm" then 180 else if bone_type = "leg" then 90 else 0
  let left_roll : ℚ := if bone_type = "arm" then 0 else if bone_type = "leg" then 90 else 0
  let leftRes := bone_add dic (base_name ++ "_L") right_head_pos right_tail_pos
    parent_bones.1 radius left_roll
  let rightRes := bone_add leftRes.2 (base_name ++ "_R") (mirrorX right_head_pos)
    (mirrorX right_tail_pos) parent_bones.2 radius right_roll
  ((leftRes.1, rightRes.1), rightRes.2)

/-- Finger-length normalizing constant from `fingers` (make_armature.py lines
329-333): `1 / (finger_1_2_ratio * finger_2_3_ratio + finger_1_2_ratio + 1)`. -/
def finger_normalize (r₁ r₂ : ℚ) : ℚ :=
  1 / (r₁ * r₂ + r₁ + 1)

/-- `proximal_finger_len = finger_len_sum * finger_normalize`
(make_armature.py line 334). -/
def proximal_finger_len (len r₁ r₂ : ℚ) : ℚ :=
  len * finger_normalize r₁ r₂

/-- `intermediate_finger_len = finger_len_sum * finger_normalize *
finger_1_2_ratio` (make_armature.py lines 335-337). -/
def intermediate_finger_len (len r₁ r₂ : ℚ) : ℚ :=
  len * finger_normalize r₁ r₂ * r₁

/-- `distal_finger_len = finger_len_sum * finger_normalize * finger_1_2_ratio
* finger_2_3_ratio` (make_armature.py lines 338-343). -/
def distal_finger_len (len r₁ r₂ : ℚ) : ℚ :=
  len * finger_normalize r₁ r₂ * r₁ * r₂

/-- Rotation about the Z (vertical) axis with cosine `c` and sine `s`, as the
upper-left block of Blender `Matrix.Rotation(angle, 4, "Z")`. -/
def rotZ (c s : ℚ) (v : Vec3) : Vec3 :=
  ⟨c * v.x - s * v.y, s * v.x + c * v.y, v.z⟩

/-- The composite transform applied to each thumb bone (make_armature.py lines
390-392): `transform(mats[n].inverted())`, then
`transform(Matrix.Rotation(radians(angle), 4, "Z"))`, then
`transform(mats[n])`, i.e. `p ↦ R (p - o) + o` where `o` is the thumb
proximal-segment origin.  The source instantiates `c = cos(±45°)`,
`s = sin(±45°)`; those values are irrational, so the embedding keeps the
rotation coefficients as parameters constrained by `c² + s² = 1`. -/
def rotateAboutOrigin (c s : ℚ) (o p : Vec3) : Vec3 :=
  let q := rotZ c s ⟨p.x - o.x, p.y - o.y, p.z - o.z⟩
  ⟨q.x + o.x, q.y + o.y, q.z + o.z⟩

/-- The whole thumb post-construction correction for one bone
(make_armature.py lines 390-393): rotate head and tail about the proximal
origin, then force the roll (`thumbs[j][n].roll = [0, radians(180)][n]`). -/
def thumbCorrect (c s : ℚ) (o : Vec3) (forcedRollDeg : ℚ) (b : EditBone) :
    EditBone :=
  { b with
    head := rotateAboutOrigin c s o b.head
    tail := rotateAboutOrigin c s o b.tail
    roll := forcedRollDeg }

namespace HumanBones

/-- `HumanBones.center_req` (vrm_types.py line 127). -/
def center_req : List String := ["hips", "spine", "chest", "neck", "head"]

/-- `HumanBones.left_leg_req` (vrm_types.py line 128). -/
def left_leg_req : List String := ["leftUpperLeg", "leftLowerLeg", "leftFoot"]

/-- `HumanBones.left_arm_req` (vrm_types.py line 129). -/
def left_arm_req : List String := ["leftUpperArm", "leftLowerArm", "leftHand"]

/-- `HumanBones.right_leg_req` (vrm_types.py line 130). -/
def right_leg_req : List String := ["rightUpperLeg", "rightLowerLeg", "rightFoot"]

/-- `HumanBones.right_arm_req` (vrm_types.py line 131). -/
def right_arm_req : List String := ["rightUpperArm", "rightLowerArm", "rightHand"]

/-- `HumanBones.requires` (vrm_types.py lines 133-139). -/
def requires : List String :=
  center_req ++ left_leg_req ++ right_leg_req ++ left_arm_req ++ right_arm_req

/-- `HumanBones.left_arm_def` (vrm_types.py lines 141-158). -/
def left_arm_def : List String :=
  ["leftShoulder",
   "leftThumbProximal", "leftThumbIntermediate", "leftThumbDistal",
   "leftIndexProximal", "leftIndexIntermediate", "leftIndexDistal",
   "leftMiddleProximal", "leftMiddleIntermediate", "leftMiddleDistal",
   "leftRingProximal", "leftRingIntermediate", "leftRingDistal",
   "leftLittleProximal", "leftLittleIntermediate", "leftLittleDistal"]

/-- `HumanBones.right_arm_def` (vrm_types.py lines 160-177). -/
def right_arm_def : List String :=
  ["rightShoulder",
   "rightThumbProximal", "rightThumbIntermediate", "rightThumbDistal",
   "rightIndexProximal", "rightIndexIntermediate", "rightIndexDistal",
   "rightMiddleProximal", "rightMiddleIntermediate", "rightMiddleDistal",
   "rightRingProximal", "rightRingIntermediate", "rightRingDistal",
   "rightLittleProximal", "rightLittleIntermediate", "rightLittleDistal"]

/-- `HumanBones.center_def` (vrm_types.py line 178). -/
def center_def : List String := ["upperChest", "jaw"]

/-- `HumanBones.left_leg_def` (vrm_types.py line 179). -/
def left_leg_def : List String := ["leftToes"]

/-- `HumanBones.right_leg_def` (vrm_types.py line 180). -/
def right_leg_def : List String := ["rightToes"]

/-- `HumanBones.defines` (vrm_types.py lines 181-189). -/
def defines : List String :=
  ["leftEye", "rightEye"] ++ center_def ++ left_leg_def ++ right_leg_def
    ++ left_arm_def ++ right_arm_def

/-- `HumanBones.hierarchy` (vrm_types.py lines 191-251), child to parent,
in source order. -/
def hierarchy : List (String × String) :=
  [("leftEye", "head"),
   ("rightEye", "head"),
   ("jaw", "head"),
   ("head", "neck"),
   ("neck", "upperChest"),
   ("upperChest", "chest"),
   ("chest", "spine"),
   ("spine", "hips"),
   ("rightShoulder", "chest"),
   ("rightUpperArm", "rightShoulder"),
   ("rightLowerArm", "rightUpperArm"),
   ("rightHand", "rightLowerArm"),
   ("rightThumbProximal", "rightHand"),
   ("rightThumbIntermediate", "rightThumbProximal"),
   ("rightThumbDistal", "rightThumbIntermediate"),
   ("rightIndexProximal", "rightHand"),
   ("rightIndexIntermediate", "rightIndexProximal"),
   ("rightIndexDistal", "rightIndexIntermediate"),
   ("rightMiddleProximal", "rightHand"),
   ("rightMiddleIntermediate", "rightMiddleProximal"),
   ("rightMiddleDistal", "rightMiddleIntermediate"),
   ("rightRingProximal", "rightHand"),
   ("rightRingIntermediate", "rightRingProximal"),
   ("rightRingDistal", "rightRingIntermediate"),
   ("rightLittleProximal", "rightHand"),
   ("rightLittleIntermediate", "rightLittleProximal"),
   ("rightLittleDistal", "rightLittleIntermediate"),
   ("leftShoulder", "chest"),
   ("leftUpperArm", "leftShoulder"),
   ("leftLowerArm", "leftUpperArm"),
   ("leftHand", "leftLowerArm"),
   ("leftThumbProximal", "leftHand"),
   ("leftThumbIntermediate", "leftThumbProximal"),
   ("leftThumbDistal", "leftThumbIntermediate"),
   ("leftIndexProximal", "leftHand"),
   ("leftIndexIntermediate", "leftIndexProximal"),
   ("leftIndexDistal", "leftIndexIntermediate"),
   ("leftMiddleProximal", "leftHand"),
   ("leftMiddleIntermediate", "leftMiddleProximal"),
   ("leftMiddleDistal", "leftMiddleIntermediate"),
   ("leftRingProximal", "leftHand"),
   ("leftRingIntermediate", "leftRingProximal"),
   ("leftRingDistal", "leftRingIntermediate"),
   ("leftLittleProximal", "leftHand"),
   ("leftLittleIntermediate", "leftLittleProximal"),
   ("leftLittleDistal", "leftLittleIntermediate"),
   ("leftUpperLeg", "hips"),
   ("leftLowerLeg", "leftUpperLeg"),
   ("leftFoot", "leftLowerLeg"),
   ("leftToes", "leftFoot"),
   ("rightUpperLeg", "hips"),
   ("rightLowerLeg", "rightUpperLeg"),
   ("rightFoot", "rightLowerLeg"),
   ("rightToes", "rightFoot")]

/-- Child names registered in `hierarchy` (dict keys). -/
def hierarchyKeys : List String := hierarchy.map Prod.fst

/-- Follow parent links from `n` for at most `fuel` steps; `true` iff "hips"
is reached. -/
def reachesHips : Nat → String → Bool
  | _, "hips" => true
  | 0, _ => false
  | fuel + 1, n =>
      match hierarchy.lookup n with
      | none => false
      | some p => reachesHips fuel p

end HumanBones

/-- `body_dict` of `make_armature` (make_armature.py lines 415-421): schema
name to the Blender name of the created center bone. -/
def body_dict : List (String × String) :=
  [("hips", "Hips"), ("spine", "Spine"), ("chest", "Chest"),
   ("neck", "Neck"), ("head", "Head")]

/-- `left_right_body_dict` (make_armature.py lines 423-437): for each body
part, in dict-literal order, one entry per side `lr ∈ {left, right}`; the
value is the name of `bones[lr]`, i.e. the x-mirrored pair's base name with
the `_L` / `_R` suffix appended by `x_mirror_bones_add`. -/
def left_right_body_dict : List (String × String) :=
  [("Eye", "eye"), ("UpperLeg", "Upper_Leg"), ("LowerLeg", "Lower_Leg"),
   ("Foot", "Foot"), ("Toes", "Toes"), ("Shoulder", "shoulder"),
   ("UpperArm", "Arm"), ("LowerArm", "forearm"), ("Hand", "hand")].flatMap
    (fun p =>
      [("left" ++ p.1, p.2 ++ "_L"), ("right" ++ p.1, p.2 ++ "_R")])

/-- `fingers_dict` (make_armature.py lines 440-448): VRM-style finger keys;
the value is the name of `finger[i][lr]`, i.e. the base passed by `fingers`
to `x_mirror_bones_add` (`f"{finger_name}_{position}"`) plus the side
suffix. -/
def fingers_dict : List (String × String) :=
  [("Thumb", "finger_thumbs"), ("Index", "finger_index"),
   ("Middle", "finger_middle"), ("Ring", "finger_ring"),
   ("Little", "finger_little")].flatMap
    (fun f =>
      [("Proximal", "proximal"), ("Intermediate", "intermediate"),
       ("Distal", "distal")].flatMap
        (fun pos =>
          [("left" ++ f.1 ++ pos.1, f.2 ++ "_" ++ pos.2 ++ "_L"),
           ("right" ++ f.1 ++ pos.1, f.2 ++ "_" ++ pos.2 ++ "_R")]))

/-- `bone_name_all_dict` (make_armature.py lines 450-454): the three sub-tables
merged by `dict.update`; their key sets are pairwise disjoint, so the
merge is concatenation in update order. -/
def bone_name_all_dict : List (String × String) :=
  body_dict ++ left_right_body_dict ++ fingers_dict

/-- Round a rational to the nearest integer, ties to even (the IEEE-754
default rounding used by float conversion). -/
def rne (y : ℚ) : ℤ :=
  if y - ⌊y⌋ < 1/2 then ⌊y⌋
  else if 1/2 < y - ⌊y⌋ then ⌊y⌋ + 1
  else if ⌊y⌋ % 2 = 0 then ⌊y⌋ else ⌊y⌋ + 1

/-- Floor of the base-2 logarithm of a positive rational, computed from the
natural-number logarithms of numerator and denominator with a one-step
correction. -/
def findExp (q : ℚ) : ℤ :=
  if (2:ℚ) ^ ((Nat.log 2 q.num.natAbs : ℤ) - (Nat.log 2 q.den : ℤ)) ≤ q
  then (Nat.log 2 q.num.natAbs : ℤ) - (Nat.log 2 q.den : ℤ)
  else (Nat.log 2 q.num.natAbs : ℤ) - (Nat.log 2 q.den : ℤ) - 1

/-- Round a rational to the nearest IEEE-754 binary32 value (24-bit
significand, subnormal quantum 2^(-149)), ties to even: the effect of
`struct.unpack("<ffff", struct.pack("<ffff", *array4))` on each component.
Overflow to infinity is not modelled; every value the claims evaluate is far
below the float32 range limit. -/
def roundF32 (q : ℚ) : ℚ :=
  if q = 0 then 0
  else 2 ^ (max (findExp |q|) (-126) - 23)
    * rne (q / 2 ^ (max (findExp |q|) (-126) - 23))

/-- A skin-weight quadruple (the `Sequence[float]` of length 4 that
`normalize_weights_compatible_with_gl_float` operates on). -/
structure Weights where
  w0 : ℚ
  w1 : ℚ
  w2 : ℚ
  w3 : ℚ
deriving DecidableEq, Repr

/-- Python `sum(weights)`.  In this exact-rational model the sequential
float64 sum and the correctly-rounded `math.fsum` coincide: both are the
exact sum. -/
def Weights.sum (w : Weights) : ℚ := w.w0 + w.w1 + w.w2 + w.w3

/-- A Python exception of `normalize_weights_compatible_with_gl_float`:
ZeroDivisionError from `weights[i] / sum(weights)` with a zero weight sum,
or OverflowError from `struct.pack` on a component beyond the float32
range. -/
inductive PyErr where
  | zeroDivision
  | overflow
deriving DecidableEq, Repr

/-- `to_gl_float` (vrm_types.py lines 469-470):
`struct.unpack("<ffff", struct.pack("<ffff", *array4))`.  CPython converts
each double to binary32 with round-to-nearest-even and `struct.pack` raises
OverflowError exactly when a finite component converts to an infinity, i.e.
when its value rounds (with unbounded exponent) to a magnitude of at least
2^128; otherwise the quadruple of rounded components is returned (`unpack`
of packed bytes never fails). -/
def to_gl_float (w : Weights) : Except PyErr Weights :=
  if |roundF32 w.w0| < 2 ^ 128 ∧ |roundF32 w.w1| < 2 ^ 128
      ∧ |roundF32 w.w2| < 2 ^ 128 ∧ |roundF32 w.w3| < 2 ^ 128
  then .ok ⟨roundF32 w.w0, roundF32 w.w1, roundF32 w.w2, roundF32 w.w3⟩
  else .error .overflow

/-- `sys.float_info.epsilon` = 2^(-52). -/
def float_epsilon : ℚ := 1 / 2 ^ 52

/-- The list comprehension `[weights[i] / sum(weights) for i in range(4)]`. -/
def divByOwnSum (w : Weights) : Weights :=
  ⟨w.w0 / w.sum, w.w1 / w.sum, w.w2 / w.sum, w.w3 / w.sum⟩

/-- The `for _ in range(10)` refinement loop of
`normalize_weights_compatible_with_gl_float` (vrm_types.py lines 474-481).
Python computes `next_weights` before the error comparison, so a zero weight
sum raises ZeroDivisionError regardless of how small the current error is,
and an overflowing component raises OverflowError from inside
`to_gl_float`. -/
def normalizeLoop : Nat → Weights → Except PyErr Weights
  | 0, w => .ok w
  | fuel + 1, w =>
      if w.sum = 0 then .error .zeroDivision
      else
        match to_gl_float (divByOwnSum w) with
        | .error e => .error e
        | .ok next_weights =>
            let error := |1 - w.sum|
            let next_error := |1 - next_weights.sum|
            if float_epsilon ≤ error ∧ next_error < error then
              normalizeLoop fuel next_weights
            else .ok w

/-- `normalize_weights_compatible_with_gl_float` (vrm_types.py lines
463-483): return the input unchanged if its sum is already within machine
epsilon of 1, otherwise round to transport precision (which can raise
OverflowError) and refine for at most 10 iterations. -/
def normalize_weights_compatible_with_gl_float (w : Weights) :
    Except PyErr Weights :=
  if |w.sum - 1| < float_epsilon then .ok w
  else
    match to_gl_float w with
    | .error e => .error e
    | .ok rounded => normalizeLoop 10 rounded

/-- A Python json value as handled by `nested_json_value_getter`: `None`,
bool, int, float, str, list or dict. -/
inductive JsonValue where
  | null
  | boolVal (b : Bool)
  | intVal (n : ℤ)
  | floatVal (q : ℚ)
  | strVal (s : String)
  | listVal (xs : List JsonValue)
  | dictVal (entries : List (String × JsonValue))

/-- `make_json_return_value` (vrm_types.py lines 409-428): identity on every
recognized type; the warning fallback is unreachable for json values. -/
def make_json_return_value : JsonValue → JsonValue
  | .null => .null
  | .intVal n => .intVal n
  | .floatVal q => .floatVal q
  | .boolVal b => .boolVal b
  | .strVal s => .strVal s
  | .listVal xs => .listVal xs
  | .dictVal entries => .dictVal entries

/-- One attribute step: a Python int (possibly negative) or str. -/
abbrev JsonAttr := Int ⊕ String

/-- `nested_json_value_getter` (vrm_types.py lines 431-451).  The `is None`
test precedes `attrs.pop(0)`; popping from an empty attribute list raises
IndexError (modelled as `.error ()`); a list is indexed only by an int within
`0 <= attr < len(json)` and a dict only by a str key it contains, any other
combination returning the default. -/
def nested_json_value_getter (json : JsonValue) (attrs : List JsonAttr)
    (default : JsonValue) : Except Unit JsonValue :=
  match json, attrs with
  | .null, _ => .ok default
  | _, [] => .error ()
  | .listVal xs, .inl i :: rest =>
      if h : 0 ≤ i ∧ i < (xs.length : ℤ) then
        let v := xs.get ⟨i.toNat, by omega⟩
        if rest.isEmpty then .ok (make_json_return_value v)
        else nested_json_value_getter v rest default
      else .ok default
  | .dictVal entries, .inr key :: rest =>
      match entries.lookup key with
      | some v =>
          if rest.isEmpty then .ok (make_json_return_value v)
          else nested_json_value_getter v rest default
      | none => .ok default
  | _, _ :: _ => .ok default

/-- Modelled from the claim's words, for comparison with the source-derived
getter: navigate the attribute path, `some` value at the end of a fully
matching path, `none` as soon as a step fails to match. -/
def pathValue : JsonValue → List JsonAttr → Option JsonValue
  | v, [] => some v
  | .listVal xs, .inl i :: rest =>
      if h : 0 ≤ i ∧ i < (xs.length : ℤ) then
        pathValue (xs.get ⟨i.toNat, by omega⟩) rest
      else none
  | .dictVal entries, .inr key :: rest =>
      match entries.lookup key with
      | some v => pathValue v rest
      | none => none
  | _, _ :: _ => none

/-- One `bpy.props.FloatProperty` declaration of `ICYP_OT_MAKE_ARMATURE`
(make_armature.py lines 15-92): name, default, hard minimum and optional
hard maximum.  Decimal literals are carried as the exact rationals written in
the source. -/
structure FloatField where
  fieldName : String
  default : ℚ
  minv : ℚ
  maxv : Option ℚ
deriving DecidableEq, Repr

/-- `tall` (make_armature.py lines 19-21): default 1.70, min 0.3. -/
def tall_field : FloatField := ⟨"tall", 17/10, 3/10, none⟩

/-- `head_ratio` (lines 23-25): default 8.0, min 4. -/
def head_ratio_field : FloatField := ⟨"head_ratio", 8, 4, none⟩

/-- `head_width_ratio` (lines 26-32): default 2/3, min 0.3, max 1.2. -/
def head_width_ratio_field : FloatField := ⟨"head_width_ratio", 2/3, 3/10, some (12/10)⟩

/-- `aging_ratio` (lines 34-36): default 0.5, min 0, max 1. -/
def aging_ratio_field : FloatField := ⟨"aging_ratio", 1/2, 0, some 1⟩

/-- `eye_depth` (lines 38-40): default -0.03, min -0.1, max 0. -/
def eye_depth_field : FloatField := ⟨"eye_depth", -3/100, -1/10, some 0⟩

/-- `shoulder_in_width` (lines 42-47): default 0.05, min 0.01. -/
def shoulder_in_width_field : FloatField := ⟨"shoulder_in_width", 5/100, 1/100, none⟩

/-- `shoulder_width` (lines 48-53): default 0.08, min 0.01. -/
def shoulder_width_field : FloatField := ⟨"shoulder_width", 8/100, 1/100, none⟩

/-- `arm_length_ratio` (lines 55-57): default 1, min 0.5. -/
def arm_length_ratio_field : FloatField := ⟨"arm_length_ratio", 1, 1/2, none⟩

/-- `hand_ratio` (lines 59-61): default 1, min 0.5, max 2.0. -/
def hand_ratio_field : FloatField := ⟨"hand_ratio", 1, 1/2, some 2⟩

/-- `finger_1_2_ratio` (lines 62-68): default 0.75, min 0.5, max 1. -/
def finger_1_2_ratio_field : FloatField := ⟨"finger_1_2_ratio", 3/4, 1/2, some 1⟩

/-- `finger_2_3_ratio` (lines 69-75): default 0.75, min 0.5, max 1. -/
def finger_2_3_ratio_field : FloatField := ⟨"finger_2_3_ratio", 3/4, 1/2, some 1⟩

/-- `leg_length_ratio` (lines 80-86): default 0.5, min 0.3, max 0.6. -/
def leg_length_ratio_field : FloatField := ⟨"leg_length_ratio", 1/2, 3/10, some (6/10)⟩

/-- `leg_width_ratio` (lines 87-89): default 1, min 0.01. -/
def leg_width_ratio_field : FloatField := ⟨"leg_width_ratio", 1, 1/100, none⟩

/-- `leg_size` (lines 90-92): default 0.26, min 0.05. -/
def leg_size_field : FloatField := ⟨"leg_size", 26/100, 5/100, none⟩

/-- All FloatProperty fields of `ICYP_OT_MAKE_ARMATURE`, in declaration
order. -/
def icyp_float_properties : List FloatField :=
  [tall_field, head_ratio_field, head_width_ratio_field, aging_ratio_field,
   eye_depth_field, shoulder_in_width_field, shoulder_width_field,
   arm_length_ratio_field, hand_ratio_field, finger_1_2_ratio_field,
   finger_2_3_ratio_field, leg_length_ratio_field, leg_width_ratio_field,
   leg_size_field]

/-- Assignment of a value to a `bpy.props.FloatProperty`: the declared `min`
and `max` are hard bounds, and Blender silently clamps the assigned value to
them (Blender API property semantics); no exception is raised, no validation
error is reported, and the operator's `make_armature` then runs with the
stored (clamped) value. -/
def assignFloatProperty (f : FloatField) (v : ℚ) : ℚ :=
  match f.maxv with
  | none => max f.minv v
  | some m => max f.minv (min m v)

/-- C6: restricted to `requires ∪ defines`, the static `HumanBones.hierarchy`
table is a tree rooted at "hips": "hips" has no parent entry, every other
name in `requires ∪ defines` appears exactly once as a key, and following
parent links from any such name reaches "hips" within a finite bound. -/
theorem humanBones_hierarchy_is_tree_rooted_at_hips :
    "hips" ∉ HumanBones.hierarchyKeys
    ∧ (∀ n ∈ HumanBones.requires ++ HumanBones.defines,
        n ≠ "hips" → HumanBones.hierarchyKeys.count n = 1)
    ∧ (∀ n ∈ HumanBones.requires ++ HumanBones.defines,
        HumanBones.reachesHips 60 n = true) := by decide

/-- Witness for the hypothesis-bearing parts of the C6 theorem, instantiated
at the concrete bone name "leftThumbDistal". -/
theorem humanBones_hierarchy_witness :
    HumanBones.hierarchyKeys.count "leftThumbDistal" = 1
    ∧ HumanBones.reachesHips 60 "leftThumbDistal" = true :=
  ⟨humanBones_hierarchy_is_tree_rooted_at_hips.2.1 "leftThumbDistal"
      (by decide) (by decide),
   humanBones_hierarchy_is_tree_rooted_at_hips.2.2 "leftThumbDistal"
      (by decide)⟩

/-- C7: the schema-name to rig-bone-name table produced by `make_armature`
contains an entry for every name in `HumanBones.requires`, and no key outside
`HumanBones.requires ∪ HumanBones.defines`. -/
theorem bone_name_all_dict_covers_requires_within_schema :
    (∀ r ∈ HumanBones.requires, (bone_name_all_dict.lookup r).isSome = true)
    ∧ (∀ kv ∈ bone_name_all_dict,
        kv.1 ∈ HumanBones.requires ∨ kv.1 ∈ HumanBones.defines) := by decide

/-- Witness for the hypothesis-bearing parts of the C7 theorem, instantiated
at the required name "rightHand" and the table entry for "leftThumbProximal". -/
theorem bone_name_all_dict_witness :
    (bone_name_all_dict.lookup "rightHand").isSome = true
    ∧ ("leftThumbProximal" ∈ HumanBones.requires
        ∨ "leftThumbProximal" ∈ HumanBones.defines) :=
  ⟨bone_name_all_dict_covers_requires_within_schema.1 "rightHand" (by decide),
   bone_name_all_dict_covers_requires_within_schema.2
     ("leftThumbProximal", "finger_thumbs_proximal_L") (by decide)⟩

-- helper lemmas about the dictionary model

theorem dictUpdate_of_not_mem (d : BoneDic) (k : String) (v : EditBone)
    (h : k ∉ d.map Prod.fst) : dictUpdate d k v = d ++ [(k, v)] := by
  induction d with
  | nil => rfl
  | cons hd tl ih =>
      obtain ⟨k₂, v₂⟩ := hd
      simp only [List.map_cons, List.mem_cons] at h
      push_neg at h
      simp only [dictUpdate, if_neg (Ne.symm h.1), List.cons_append,
        List.cons.injEq, true_and]
      exact ih h.2

theorem dictUpdate_keys (d : BoneDic) (k : String) (v : EditBone) :
    (dictUpdate d k v).map Prod.fst
      = if k ∈ d.map Prod.fst then d.map Prod.fst
        else d.map Prod.fst ++ [k] := by
  induction d with
  | nil => simp [dictUpdate]
  | cons hd tl ih =>
      by_cases hk : hd.1 = k
      · simp [dictUpdate, hk]
      · simp only [dictUpdate, if_neg hk, List.map_cons, ih, List.mem_cons]
        by_cases hmem : k ∈ tl.map Prod.fst
        · simp [hmem, Ne.symm hk]
        · simp [hmem, Ne.symm hk]

theorem dictUpdate_keys_nodup (d : BoneDic) (k : String) (v : EditBone)
    (h : (d.map Prod.fst).Nodup) :
    ((dictUpdate d k v).map Prod.fst).Nodup := by
  rw [dictUpdate_keys]
  by_cases hmem : k ∈ d.map Prod.fst
  · simpa [hmem] using h
  · simp [hmem, List.nodup_append, h]

theorem append_L_ne_append_R (base : String) :
    base ++ "_L" ≠ base ++ "_R" := by
  intro h
  have h2 := congrArg String.data h
  simp only [String.data_append] at h2
  have h3 := List.append_cancel_left h2
  simp at h3

/-- C1 (amended): for ratio parameters `r₁, r₂ ∈ (0, 1]` the three derived
finger segment lengths always sum exactly to the total length, and — provided
the total length is nonzero — the segment ratios are exactly `r₂` and `r₁`.
The ratio equalities fail at totalLength = 0 (see the counterexample), which
is the only amendment to the claim. -/
theorem finger_segment_lengths_sum_and_ratios (len r₁ r₂ : ℚ)
    (h₁ : 0 < r₁) (h₂ : r₁ ≤ 1) (h₃ : 0 < r₂) (h₄ : r₂ ≤ 1) :
    proximal_finger_len len r₁ r₂ + intermediate_finger_len len r₁ r₂
      + distal_finger_len len r₁ r₂ = len
    ∧ (len ≠ 0 →
        distal_finger_len len r₁ r₂ / intermediate_finger_len len r₁ r₂ = r₂
        ∧ intermediate_finger_len len r₁ r₂ / proximal_finger_len len r₁ r₂
            = r₁) := by
  have hD : 0 < r₁ * r₂ + r₁ + 1 := by nlinarith [mul_pos h₁ h₃]
  constructor
  · unfold proximal_finger_len intermediate_finger_len distal_finger_len
      finger_normalize
    field_simp
    ring
  · intro hlen
    have hfn : finger_normalize r₁ r₂ ≠ 0 := by
      unfold finger_normalize
      exact one_div_ne_zero hD.ne'
    have hinter : intermediate_finger_len len r₁ r₂ ≠ 0 := by
      unfold intermediate_finger_len
      exact mul_ne_zero (mul_ne_zero hlen hfn) h₁.ne'
    have hprox : proximal_finger_len len r₁ r₂ ≠ 0 := by
      unfold proximal_finger_len
      exact mul_ne_zero hlen hfn
    constructor
    · unfold distal_finger_len intermediate_finger_len at *
      field_simp
    · unfold intermediate_finger_len proximal_finger_len at *
      field_simp

/-- Witness for the C1 theorem at `len = 1`, `r₁ = r₂ = 1/2`. -/
theorem finger_segment_lengths_witness :
    proximal_finger_len 1 (1/2) (1/2) + intermediate_finger_len 1 (1/2) (1/2)
      + distal_finger_len 1 (1/2) (1/2) = 1
    ∧ distal_finger_len 1 (1/2) (1/2) / intermediate_finger_len 1 (1/2) (1/2)
        = 1/2 :=
  ⟨(finger_segment_lengths_sum_and_ratios 1 (1/2) (1/2) (by norm_num)
      (by norm_num) (by norm_num) (by norm_num)).1,
   ((finger_segment_lengths_sum_and_ratios 1 (1/2) (1/2) (by norm_num)
      (by norm_num) (by norm_num) (by norm_num)).2 (by norm_num)).1⟩

/-- Counterexample to C1 as stated: at totalLength = 0 (allowed by "any
totalLength") with `r₁ = r₂ = 1/2`, both derived segment lengths are 0, so
the claimed ratio `distalLen / intermediateLen == r₂` does not hold (in
Python the division raises ZeroDivisionError; in exact arithmetic the
quotient is 0 ≠ 1/2). -/
theorem finger_ratio_zero_total_length_counterexample :
    distal_finger_len 0 (1/2) (1/2) / intermediate_finger_len 0 (1/2) (1/2)
      ≠ (1/2 : ℚ) := by
  norm_num [distal_finger_len, intermediate_finger_len, finger_normalize]

/-- C2: `x_mirror_bones_add` creates the left bone first (its registration
precedes the right one in the dictionary) at exactly the unmirrored
coordinates under `base + "_L"`; the right bone gets the x coordinate of both
head and tail negated under `base + "_R"`; and both bones have equal
head-to-tail (squared) length. -/
theorem x_mirror_bones_add_spec (dic : BoneDic) (base : String)
    (rh rt : Vec3) (parents : Option String × Option String) (radius : ℚ)
    (bt : String)
    (hL : base ++ "_L" ∉ dic.map Prod.fst)
    (hR : base ++ "_R" ∉ dic.map Prod.fst) :
    (x_mirror_bones_add dic base rh rt parents radius bt).1.1.name
        = base ++ "_L"
    ∧ (x_mirror_bones_add dic base rh rt parents radius bt).1.1.head = rh
    ∧ (x_mirror_bones_add dic base rh rt parents radius bt).1.1.tail = rt
    ∧ (x_mirror_bones_add dic base rh rt parents radius bt).1.2.name
        = base ++ "_R"
    ∧ (x_mirror_bones_add dic base rh rt parents radius bt).1.2.head
        = mirrorX rh
    ∧ (x_mirror_bones_add dic base rh rt parents radius bt).1.2.tail
        = mirrorX rt
    ∧ (x_mirror_bones_add dic base rh rt parents radius bt).2
        = dic
          ++ [(base ++ "_L",
                (x_mirror_bones_add dic base rh rt parents radius bt).1.1),
              (base ++ "_R",
                (x_mirror_bones_add dic base rh rt parents radius bt).1.2)]
    ∧ sqDist (x_mirror_bones_add dic base rh rt parents radius bt).1.2.head
          (x_mirror_bones_add dic base rh rt parents radius bt).1.2.tail
        = sqDist
            (x_mirror_bones_add dic base rh rt parents radius bt).1.1.head
            (x_mirror_bones_add dic base rh rt parents radius bt).1.1.tail := by
  refine ⟨rfl, rfl, rfl, rfl, rfl, rfl, ?_, ?_⟩
  · show dictUpdate (dictUpdate dic (base ++ "_L") _) (base ++ "_R") _ = _
    rw [dictUpdate_of_not_mem dic (base ++ "_L") _ hL]
    rw [dictUpdate_of_not_mem _ (base ++ "_R") _ (by
      simp only [List.map_append, List.mem_append, List.map_cons,
        List.map_nil, List.mem_cons, List.not_mem_nil, or_false]
      push_neg
      exact ⟨hR, Ne.symm (append_L_ne_append_R base)⟩)]
    simp [x_mirror_bones_add, bone_add, List.append_assoc]
  · show sqDist (mirrorX rh) (mirrorX rt) = sqDist rh rt
    simp only [sqDist, mirrorX]
    ring

/-- Witness for the C2 theorem on an empty dictionary with concrete
coordinates. -/
theorem x_mirror_bones_add_witness :
    (x_mirror_bones_add [] "bone" ⟨1, 2, 3⟩ ⟨4, 5, 6⟩ (none, none) (1/10)
        "arm").1.2.head = mirrorX ⟨1, 2, 3⟩
    ∧ sqDist (x_mirror_bones_add [] "bone" ⟨1, 2, 3⟩ ⟨4, 5, 6⟩ (none, none)
          (1/10) "arm").1.2.head
        (x_mirror_bones_add [] "bone" ⟨1, 2, 3⟩ ⟨4, 5, 6⟩ (none, none)
          (1/10) "arm").1.2.tail
      = sqDist (x_mirror_bones_add [] "bone" ⟨1, 2, 3⟩ ⟨4, 5, 6⟩ (none, none)
          (1/10) "arm").1.1.head
        (x_mirror_bones_add [] "bone" ⟨1, 2, 3⟩ ⟨4, 5, 6⟩ (none, none)
          (1/10) "arm").1.1.tail :=
  ⟨(x_mirror_bones_add_spec [] "bone" ⟨1, 2, 3⟩ ⟨4, 5, 6⟩ (none, none) (1/10)
      "arm" (by simp) (by simp)).2.2.2.2.1,
   (x_mirror_bones_add_spec [] "bone" ⟨1, 2, 3⟩ ⟨4, 5, 6⟩ (none, none) (1/10)
      "arm" (by simp) (by simp)).2.2.2.2.2.2.2⟩

/-- C3: the thumb correction — rotation by any angle about the vertical axis
around the proximal-segment origin followed by forcing the roll — preserves
every segment's head-to-tail (squared) length.  The rotation coefficients
`c, s` stand for the cosine and sine of the ±45° used by the source; the
result holds for every pair with `c² + s² = 1`. -/
theorem thumbCorrect_preserves_length (c s : ℚ) (o : Vec3) (rollDeg : ℚ)
    (b : EditBone) (h : c ^ 2 + s ^ 2 = 1) :
    sqDist (thumbCorrect c s o rollDeg b).head
        (thumbCorrect c s o rollDeg b).tail
      = sqDist b.head b.tail := by
  simp only [thumbCorrect, rotateAboutOrigin, rotZ, sqDist]
  linear_combination
    ((b.head.x - b.tail.x) ^ 2 + (b.head.y - b.tail.y) ^ 2) * h

/-- Witness for the C3 theorem with the Pythagorean rotation
`c = 3/5, s = 4/5` and a concrete bone. -/
theorem thumbCorrect_preserves_length_witness :
    sqDist
        (thumbCorrect (3/5) (4/5) ⟨1, 1, 0⟩ 0
          ⟨"finger_thumbs_proximal_L", ⟨0, 0, 0⟩, ⟨1, 2, 3⟩, 1/10, 1/10,
            1/100, 0, none⟩).head
        (thumbCorrect (3/5) (4/5) ⟨1, 1, 0⟩ 0
          ⟨"finger_thumbs_proximal_L", ⟨0, 0, 0⟩, ⟨1, 2, 3⟩, 1/10, 1/10,
            1/100, 0, none⟩).tail
      = sqDist ⟨0, 0, 0⟩ ⟨1, 2, 3⟩ :=
  thumbCorrect_preserves_length (3/5) (4/5) ⟨1, 1, 0⟩ 0 _ (by norm_num)

/-- C8 (amended): `bone_add` never fails; registering a name that already
exists silently replaces the registered bone (Python `dict.update`), and any
sequence of insertions keeps the registered bone names distinct. -/
theorem bone_add_keeps_registered_names_distinct (dic : BoneDic)
    (name : String) (head_pos tail_pos : Vec3) (parent_bone : Option String)
    (radius roll : ℚ) (h : (dic.map Prod.fst).Nodup) :
    (((bone_add dic name head_pos tail_pos parent_bone radius roll).2).map
        Prod.fst).Nodup := by
  simpa [bone_add] using dictUpdate_keys_nodup dic name _ h

/-- Witness for the C8 theorem: one insertion into the empty dictionary. -/
theorem bone_add_keeps_registered_names_distinct_witness :
    (((bone_add [] "root" ⟨0, 0, 0⟩ ⟨0, 0, 3/10⟩ none (1/10) 0).2).map
        Prod.fst).Nodup :=
  bone_add_keeps_registered_names_distinct [] "root" ⟨0, 0, 0⟩ ⟨0, 0, 3/10⟩
    none (1/10) 0 (by simp)

/-- Counterexample to C8 as stated: inserting the name "A" twice completes
normally — no DuplicateNameError exists anywhere in `bone_add` — and the
second bone silently replaces the first under the same key. -/
theorem bone_add_duplicate_name_overwrites_counterexample :
    (bone_add (bone_add [] "A" ⟨0, 0, 0⟩ ⟨0, 0, 1⟩ none (1/10) 0).2 "A"
        ⟨1, 0, 0⟩ ⟨1, 0, 1⟩ none (1/10) 0).2
      = [("A",
          ⟨"A", ⟨1, 0, 0⟩, ⟨1, 0, 1⟩, 1/10, 1/10, 1/100, 0, none⟩)] := by
  simp [bone_add, dictUpdate]

/-- C9 (amended): assignment to any declared FloatProperty field clamps the
incoming value into the declared `[min, max]` range silently — no validation
error is raised — and leaves in-range values unchanged, so synthesis always
starts with in-range (possibly clamped) values. -/
theorem float_property_assignment_clamps_into_range (f : FloatField)
    (hf : f ∈ icyp_float_properties) (v : ℚ) :
    f.minv ≤ assignFloatProperty f v
    ∧ (∀ m, f.maxv = some m → assignFloatProperty f v ≤ m)
    ∧ (f.minv ≤ v → (∀ m, f.maxv = some m → v ≤ m) →
        assignFloatProperty f v = v) := by
  refine ⟨?_, ?_, ?_⟩
  · unfold assignFloatProperty
    cases f.maxv <;> simp
  · intro m hm
    have hminmax : f.minv ≤ m := by
      fin_cases hf <;>
        simp only [tall_field, head_ratio_field, head_width_ratio_field,
          aging_ratio_field, eye_depth_field, shoulder_in_width_field,
          shoulder_width_field, arm_length_ratio_field, hand_ratio_field,
          finger_1_2_ratio_field, finger_2_3_ratio_field,
          leg_length_ratio_field, leg_width_ratio_field, leg_size_field,
          Option.some.injEq] at hm ⊢ <;>
        first
          | exact absurd hm (by simp)
          | (rw [← hm]; norm_num)
    unfold assignFloatProperty
    rw [hm]
    exact max_le hminmax (min_le_left m v)
  · intro h1 h2
    unfold assignFloatProperty
    cases hm : f.maxv with
    | none =>
        show max f.minv v = v
        exact max_eq_right h1
    | some m =>
        show max f.minv (min m v) = v
        rw [min_eq_right (h2 m hm), max_eq_right h1]

/-- Witness for the C9 theorem at the `tall` field with the in-range value
2. -/
theorem float_property_assignment_witness :
    tall_field.minv ≤ assignFloatProperty tall_field 2
    ∧ assignFloatProperty tall_field 2 = 2 :=
  ⟨(float_property_assignment_clamps_into_range tall_field
      (by simp [icyp_float_properties]) 2).1,
   (float_property_assignment_clamps_into_range tall_field
      (by simp [icyp_float_properties]) 2).2.2 (by norm_num [tall_field])
      (by intro m hm; simp [tall_field] at hm)⟩

/-- Counterexample to C9 as stated: assigning 0.1 to `tall` (declared
minimum 0.3) does not produce any error — no ParameterRangeError exists in
the operator — and the value is silently clamped to 0.3, with which
synthesis then proceeds. -/
theorem out_of_range_parameter_silently_clamped_counterexample :
    assignFloatProperty tall_field (1/10) = 3/10
    ∧ (3/10 : ℚ) ≠ 1/10 := by
  constructor
  · show max (3/10 : ℚ) (1/10) = 3/10
    exact max_eq_left (by norm_num)
  · norm_num

theorem make_json_return_value_id (v : JsonValue) :
    make_json_return_value v = v := by
  cases v <;> rfl

theorem nested_json_value_getter_eq_pathValue :
    ∀ (attrs : List JsonAttr) (json default : JsonValue), attrs ≠ [] →
      nested_json_value_getter json attrs default
        = .ok ((pathValue json attrs).getD default) := by
  intro attrs
  induction attrs with
  | nil => intro json default h; exact absurd rfl h
  | cons a rest ih =>
      intro json default _
      cases json with
      | null => simp [nested_json_value_getter, pathValue]
      | boolVal b => simp [nested_json_value_getter, pathValue]
      | intVal n => simp [nested_json_value_getter, pathValue]
      | floatVal q => simp [nested_json_value_getter, pathValue]
      | strVal s => simp [nested_json_value_getter, pathValue]
      | listVal xs =>
          cases a with
          | inl i =>
              by_cases h : 0 ≤ i ∧ i < (xs.length : ℤ)
              · cases hrest : rest with
                | nil =>
                    simp [nested_json_value_getter, pathValue, h,
                      make_json_return_value_id]
                | cons b tl =>
                    subst hrest
                    simp only [nested_json_value_getter, pathValue, dif_pos h,
                      List.isEmpty_cons, Bool.false_eq_true, if_false]
                    exact ih _ _ (by simp)
              · simp [nested_json_value_getter, pathValue, h]
          | inr key => simp [nested_json_value_getter, pathValue]
      | dictVal entries =>
          cases a with
          | inl i => simp [nested_json_value_getter, pathValue]
          | inr key =>
              cases hlook : entries.lookup key with
              | none => simp [nested_json_value_getter, pathValue, hlook]
              | some v =>
                  cases hrest : rest with
                  | nil =>
                      simp [nested_json_value_getter, pathValue, hlook,
                        make_json_return_value_id]
                  | cons b tl =>
                      subst hrest
                      simp only [nested_json_value_getter, pathValue, hlook,
                        List.isEmpty_cons, Bool.false_eq_true, if_false]
                      exact ih _ _ (by simp)

/-- C10 (amended): for every json value and non-empty attribute path,
`nested_json_value_getter` terminates and returns without raising, yielding
the value at the end of the path when every step matches and the default as
soon as a step fails to match; on an empty path it raises IndexError from
`attrs.pop(0)` — unless the json value is None, in which case the `is None`
check fires first and the default is returned. -/
theorem nested_json_value_getter_spec (json : JsonValue)
    (attrs : List JsonAttr) (default : JsonValue) :
    (attrs ≠ [] →
        nested_json_value_getter json attrs default
          = .ok ((pathValue json attrs).getD default))
    ∧ (json = .null →
        nested_json_value_getter json [] default = .ok default)
    ∧ (json ≠ .null →
        nested_json_value_getter json [] default = .error ()) := by
  refine ⟨nested_json_value_getter_eq_pathValue attrs json default, ?_, ?_⟩
  · intro h
    subst h
    rfl
  · intro h
    cases json with
    | null => exact absurd rfl h
    | boolVal b => rfl
    | intVal n => rfl
    | floatVal q => rfl
    | strVal s => rfl
    | listVal xs => rfl
    | dictVal entries => rfl

/-- Witness for the C10 theorem: a one-step path into a concrete dict. -/
theorem nested_json_value_getter_witness :
    nested_json_value_getter (.dictVal [("a", .intVal 5)]) [.inr "a"] .null
      = .ok ((pathValue (.dictVal [("a", .intVal 5)]) [.inr "a"]).getD .null) :=
  (nested_json_value_getter_spec (.dictVal [("a", .intVal 5)]) [.inr "a"]
      .null).1 (by simp)

/-- Counterexample to C10 as stated: the claim asserts an empty attribute
path raises, but with json = None the `is None` check precedes `attrs.pop(0)`
and the default is returned without any exception. -/
theorem nested_json_value_getter_empty_path_none_counterexample :
    nested_json_value_getter .null [] (.strVal "default")
      = .ok (.strVal "default") := by
  rfl

-- helper lemmas for the float32 rounding model

theorem rne_lb (y : ℚ) : y - 1/2 ≤ (rne y : ℚ) := by
  have h1 : (⌊y⌋ : ℚ) ≤ y := Int.floor_le y
  have h2 : y < ⌊y⌋ + 1 := Int.lt_floor_add_one y
  unfold rne
  split_ifs <;> push_cast <;> linarith

theorem rne_nonneg (y : ℚ) (h : 0 ≤ y) : 0 ≤ rne y := by
  have h0 : 0 ≤ ⌊y⌋ := Int.floor_nonneg.mpr h
  unfold rne
  split_ifs <;> omega

theorem rne_ub (y : ℚ) : (rne y : ℚ) ≤ y + 1/2 := by
  have h1 : (⌊y⌋ : ℚ) ≤ y := Int.floor_le y
  have h2 : y < ⌊y⌋ + 1 := Int.lt_floor_add_one y
  unfold rne
  split_ifs <;> push_cast <;> linarith

theorem exp_bracket (q : ℚ) (hq : 0 < q) :
    (2:ℚ) ^ ((Nat.log 2 q.num.natAbs : ℤ) - (Nat.log 2 q.den : ℤ) - 1) < q
    ∧ q < (2:ℚ) ^ ((Nat.log 2 q.num.natAbs : ℤ) - (Nat.log 2 q.den : ℤ) + 1) := by
  have hnum : 0 < q.num := Rat.num_pos.mpr hq
  have hden : 0 < q.den := q.den_pos
  have hnatabs : q.num.natAbs ≠ 0 := Int.natAbs_ne_zero.mpr hnum.ne'
  set a := Nat.log 2 q.num.natAbs with ha
  set b := Nat.log 2 q.den with hb
  have hNa : (2:ℕ) ^ a ≤ q.num.natAbs := Nat.pow_log_le_self 2 hnatabs
  have hNa' : q.num.natAbs < 2 ^ (a + 1) :=
    Nat.lt_pow_succ_log_self (by norm_num) _
  have hDb : (2:ℕ) ^ b ≤ q.den := Nat.pow_log_le_self 2 hden.ne'
  have hDb' : q.den < 2 ^ (b + 1) := Nat.lt_pow_succ_log_self (by norm_num) _
  have hNq : ((q.num.natAbs : ℚ)) = (q.num : ℚ) := by
    rw [Int.cast_natAbs, abs_of_pos (by exact_mod_cast hnum)]
  have hq_eq : q = (q.num.natAbs : ℚ) / (q.den : ℚ) := by
    rw [hNq, Rat.num_div_den]
  have c1 : ((2^a : ℕ) : ℚ) ≤ (q.num.natAbs : ℚ) := by exact_mod_cast hNa
  have c2 : (q.num.natAbs : ℚ) < 2 * ((2^a : ℕ) : ℚ) := by
    have hcast : (q.num.natAbs : ℚ) < ((2^(a+1) : ℕ) : ℚ) := by exact_mod_cast hNa'
    have heq : ((2^(a+1) : ℕ) : ℚ) = 2 * ((2^a : ℕ) : ℚ) := by
      push_cast [pow_succ]
      ring
    linarith
  have c3 : ((2^b : ℕ) : ℚ) ≤ (q.den : ℚ) := by exact_mod_cast hDb
  have c4 : (q.den : ℚ) < 2 * ((2^b : ℕ) : ℚ) := by
    have hcast : (q.den : ℚ) < ((2^(b+1) : ℕ) : ℚ) := by exact_mod_cast hDb'
    have heq : ((2^(b+1) : ℕ) : ℚ) = 2 * ((2^b : ℕ) : ℚ) := by
      push_cast [pow_succ]
      ring
    linarith
  have hApos : (0:ℚ) < ((2^a : ℕ) : ℚ) := by positivity
  have hBpos : (0:ℚ) < ((2^b : ℕ) : ℚ) := by positivity
  have hDpos : (0:ℚ) < (q.den : ℚ) := by exact_mod_cast hden
  have z1 : (2:ℚ) ^ ((a:ℤ) - b - 1) = ((2^a : ℕ) : ℚ) / (2 * ((2^b : ℕ) : ℚ)) := by
    rw [zpow_sub₀ (two_ne_zero), zpow_sub₀ (two_ne_zero), zpow_one]
    rw [show ((2:ℚ) ^ (a:ℤ)) = ((2^a : ℕ) : ℚ) by push_cast; norm_num]
    rw [show ((2:ℚ) ^ (b:ℤ)) = ((2^b : ℕ) : ℚ) by push_cast; norm_num]
    rw [div_div, mul_comm]
  have z2 : (2:ℚ) ^ ((a:ℤ) - b + 1) = 2 * ((2^a : ℕ) : ℚ) / ((2^b : ℕ) : ℚ) := by
    rw [zpow_add₀ (two_ne_zero), zpow_sub₀ (two_ne_zero), zpow_one]
    rw [show ((2:ℚ) ^ (a:ℤ)) = ((2^a : ℕ) : ℚ) by push_cast; norm_num]
    rw [show ((2:ℚ) ^ (b:ℤ)) = ((2^b : ℕ) : ℚ) by push_cast; norm_num]
    ring
  constructor
  · rw [z1, hq_eq, div_lt_div_iff₀ (by positivity) hDpos]
    nlinarith
  · rw [z2, hq_eq, div_lt_div_iff₀ hDpos hBpos]
    nlinarith

theorem findExp_spec (q : ℚ) (hq : 0 < q) :
    (2:ℚ) ^ findExp q ≤ q ∧ q < (2:ℚ) ^ (findExp q + 1) := by
  obtain ⟨hlow, hhigh⟩ := exp_bracket q hq
  unfold findExp
  split_ifs with h
  · exact ⟨h, hhigh⟩
  · constructor
    · exact hlow.le
    · rw [show (Nat.log 2 q.num.natAbs : ℤ) - (Nat.log 2 q.den : ℤ) - 1 + 1
          = (Nat.log 2 q.num.natAbs : ℤ) - (Nat.log 2 q.den : ℤ) by ring]
      exact lt_of_not_le h

theorem roundF32_nonneg (q : ℚ) (h : 0 ≤ q) : 0 ≤ roundF32 q := by
  unfold roundF32
  split_ifs with h0
  · exact le_refl 0
  · have hstep : (0:ℚ) < 2 ^ (max (findExp |q|) (-126) - 23) :=
      zpow_pos (by norm_num) _
    have hdiv : 0 ≤ q / 2 ^ (max (findExp |q|) (-126) - 23) :=
      div_nonneg h hstep.le
    have hr : (0:ℚ) ≤ (rne (q / 2 ^ (max (findExp |q|) (-126) - 23)) : ℚ) := by
      exact_mod_cast rne_nonneg _ hdiv
    exact mul_nonneg hstep.le hr

theorem roundF32_lb (q : ℚ) (h : 1/4 ≤ q) :
    q - q / 16777216 ≤ roundF32 q := by
  have hq : 0 < q := lt_of_lt_of_le (by norm_num) h
  have habs : |q| = q := abs_of_pos hq
  obtain ⟨hlo, hhi⟩ := findExp_spec q hq
  have he2 : -2 ≤ findExp q := by
    by_contra hcon
    push_neg at hcon
    have hle : (2:ℚ) ^ (findExp q + 1) ≤ (2:ℚ) ^ (-2 : ℤ) :=
      zpow_le_zpow_right₀ (by norm_num) (by omega)
    have hq4 : q < (2:ℚ) ^ (-2 : ℤ) := lt_of_lt_of_le hhi hle
    rw [show ((2:ℚ) ^ (-2 : ℤ)) = 1/4 by norm_num] at hq4
    linarith
  have hmax : max (findExp |q|) (-126) = findExp q := by
    rw [habs]
    exact max_eq_left (by omega)
  unfold roundF32
  rw [if_neg hq.ne', hmax]
  have hstep : (0:ℚ) < 2 ^ (findExp q - 23) := zpow_pos (by norm_num) _
  have hstep_le : (2:ℚ) ^ (findExp q - 23) ≤ q / 8388608 := by
    rw [zpow_sub₀ (two_ne_zero)]
    rw [show ((2:ℚ) ^ (23:ℤ)) = 8388608 by norm_num]
    gcongr
  have hrne : q / 2 ^ (findExp q - 23) - 1/2
      ≤ (rne (q / 2 ^ (findExp q - 23)) : ℚ) := rne_lb _
  have key : 2 ^ (findExp q - 23) * (q / 2 ^ (findExp q - 23) - 1/2)
      ≤ 2 ^ (findExp q - 23) * (rne (q / 2 ^ (findExp q - 23)) : ℚ) :=
    mul_le_mul_of_nonneg_left hrne hstep.le
  have expand : 2 ^ (findExp q - 23) * (q / 2 ^ (findExp q - 23) - 1/2)
      = q - 2 ^ (findExp q - 23) / 2 := by
    field_simp
    ring
  linarith

theorem roundF32_pos (q : ℚ) (h : 1/4 ≤ q) : 0 < roundF32 q := by
  have hq : 0 < q := lt_of_lt_of_le (by norm_num) h
  have hlb := roundF32_lb q h
  have hlt : q / 16777216 < q := div_lt_self hq (by norm_num)
  linarith

theorem findExp_nonpos (q : ℚ) (hq : 0 < q) (h1 : q ≤ 1) : findExp q ≤ 0 := by
  obtain ⟨hlo, _⟩ := findExp_spec q hq
  by_contra hcon
  push_neg at hcon
  have hge : (2:ℚ) ^ (1:ℤ) ≤ (2:ℚ) ^ findExp q :=
    zpow_le_zpow_right₀ (by norm_num) (by omega)
  rw [zpow_one] at hge
  linarith

theorem roundF32_ub_of_le_one (q : ℚ) (h0 : 0 ≤ q) (h1 : q ≤ 1) :
    roundF32 q ≤ q + 1 := by
  unfold roundF32
  split_ifs with hz
  · linarith
  · have hq : 0 < q := h0.lt_of_ne (Ne.symm hz)
    have habs : |q| = q := abs_of_pos hq
    rw [habs]
    have he : findExp q ≤ 0 := findExp_nonpos q hq h1
    have hstep_pos : (0:ℚ) < 2 ^ (max (findExp q) (-126) - 23) :=
      zpow_pos (by norm_num) _
    have hstep_le : (2:ℚ) ^ (max (findExp q) (-126) - 23) ≤ 1 := by
      rw [show (1:ℚ) = 2 ^ (0:ℤ) by norm_num]
      exact zpow_le_zpow_right₀ (by norm_num) (by omega)
    have hub : (rne (q / 2 ^ (max (findExp q) (-126) - 23)) : ℚ)
        ≤ q / 2 ^ (max (findExp q) (-126) - 23) + 1/2 := rne_ub _
    have key : 2 ^ (max (findExp q) (-126) - 23)
          * (rne (q / 2 ^ (max (findExp q) (-126) - 23)) : ℚ)
        ≤ 2 ^ (max (findExp q) (-126) - 23)
          * (q / 2 ^ (max (findExp q) (-126) - 23) + 1/2) :=
      mul_le_mul_of_nonneg_left hub hstep_pos.le
    have expand : 2 ^ (max (findExp q) (-126) - 23)
          * (q / 2 ^ (max (findExp q) (-126) - 23) + 1/2)
        = q + 2 ^ (max (findExp q) (-126) - 23) / 2 := by
      field_simp
      ring
    linarith

theorem next_weights_invariant (w : Weights) (h0 : 0 ≤ w.w0) (h1 : 0 ≤ w.w1)
    (h2 : 0 ≤ w.w2) (h3 : 0 ≤ w.w3) (hs : 0 < w.sum) :
    to_gl_float (divByOwnSum w)
      = .ok ⟨roundF32 (w.w0 / w.sum), roundF32 (w.w1 / w.sum),
             roundF32 (w.w2 / w.sum), roundF32 (w.w3 / w.sum)⟩
    ∧ 0 ≤ roundF32 (w.w0 / w.sum) ∧ 0 ≤ roundF32 (w.w1 / w.sum)
    ∧ 0 ≤ roundF32 (w.w2 / w.sum) ∧ 0 ≤ roundF32 (w.w3 / w.sum)
    ∧ 0 < roundF32 (w.w0 / w.sum) + roundF32 (w.w1 / w.sum)
        + roundF32 (w.w2 / w.sum) + roundF32 (w.w3 / w.sum) := by
  have hdef : w.w0 + w.w1 + w.w2 + w.w3 = w.sum := rfl
  have d0 : 0 ≤ w.w0 / w.sum := div_nonneg h0 hs.le
  have d1 : 0 ≤ w.w1 / w.sum := div_nonneg h1 hs.le
  have d2 : 0 ≤ w.w2 / w.sum := div_nonneg h2 hs.le
  have d3 : 0 ≤ w.w3 / w.sum := div_nonneg h3 hs.le
  have u0 : w.w0 / w.sum ≤ 1 := by rw [div_le_one hs]; linarith
  have u1 : w.w1 / w.sum ≤ 1 := by rw [div_le_one hs]; linarith
  have u2 : w.w2 / w.sum ≤ 1 := by rw [div_le_one hs]; linarith
  have u3 : w.w3 / w.sum ≤ 1 := by rw [div_le_one hs]; linarith
  have r0 : 0 ≤ roundF32 (w.w0 / w.sum) := roundF32_nonneg _ d0
  have r1 : 0 ≤ roundF32 (w.w1 / w.sum) := roundF32_nonneg _ d1
  have r2 : 0 ≤ roundF32 (w.w2 / w.sum) := roundF32_nonneg _ d2
  have r3 : 0 ≤ roundF32 (w.w3 / w.sum) := roundF32_nonneg _ d3
  have b0 := roundF32_ub_of_le_one _ d0 u0
  have b1 := roundF32_ub_of_le_one _ d1 u1
  have b2 := roundF32_ub_of_le_one _ d2 u2
  have b3 := roundF32_ub_of_le_one _ d3 u3
  have hpack : to_gl_float (divByOwnSum w)
      = .ok ⟨roundF32 (w.w0 / w.sum), roundF32 (w.w1 / w.sum),
             roundF32 (w.w2 / w.sum), roundF32 (w.w3 / w.sum)⟩ := by
    unfold to_gl_float divByOwnSum
    rw [if_pos]
    refine ⟨?_, ?_, ?_, ?_⟩ <;> rw [abs_of_nonneg (by assumption)] <;>
      nlinarith [pow_pos (by norm_num : (0:ℚ) < 2) 128,
        (by norm_num : (4:ℚ) ≤ 2 ^ 128)]
  have hsum1 : w.w0 / w.sum + w.w1 / w.sum + w.w2 / w.sum + w.w3 / w.sum
      = 1 := by
    field_simp
    linarith [hdef]
  have hquarter : 1/4 ≤ w.w0 / w.sum ∨ 1/4 ≤ w.w1 / w.sum
      ∨ 1/4 ≤ w.w2 / w.sum ∨ 1/4 ≤ w.w3 / w.sum := by
    by_contra hcon
    push_neg at hcon
    obtain ⟨a1, a2, a3, a4⟩ := hcon
    linarith
  refine ⟨hpack, r0, r1, r2, r3, ?_⟩
  rcases hquarter with hqq | hqq | hqq | hqq <;>
    [have hp := roundF32_pos _ hqq;
     have hp := roundF32_pos _ hqq;
     have hp := roundF32_pos _ hqq;
     have hp := roundF32_pos _ hqq] <;>
    linarith

theorem normalizeLoop_succ (fuel : Nat) (w : Weights) :
    normalizeLoop (fuel + 1) w
      = if w.sum = 0 then .error .zeroDivision
        else
          match to_gl_float (divByOwnSum w) with
          | .error e => .error e
          | .ok next_weights =>
              if float_epsilon ≤ |1 - w.sum|
                  ∧ |1 - next_weights.sum| < |1 - w.sum| then
                normalizeLoop fuel next_weights
              else .ok w := rfl

theorem normalizeLoop_ok (n : Nat) :
    ∀ w : Weights, 0 ≤ w.w0 → 0 ≤ w.w1 → 0 ≤ w.w2 → 0 ≤ w.w3 →
      0 < w.sum → ∃ r, normalizeLoop n w = .ok r := by
  induction n with
  | zero => exact fun w _ _ _ _ _ => ⟨w, rfl⟩
  | succ n ih =>
      intro w h0 h1 h2 h3 hs
      obtain ⟨hpack, n0, n1, n2, n3, nsum⟩ :=
        next_weights_invariant w h0 h1 h2 h3 hs
      rw [normalizeLoop_succ, if_neg hs.ne']
      simp only [hpack]
      split_ifs with hcond
      · exact ih _ n0 n1 n2 n3 nsum
      · exact ⟨w, rfl⟩

/-- C4 (amended): `normalize_weights_compatible_with_gl_float` returns a
value for every weight quadruple whose components are nonnegative, pack into
float32 without overflow (`to_gl_float` succeeds), and whose float32-rounded
sum is positive — in particular for every actual skin-weight quadruple with
at least one nonvanishing weight.  Outside that domain it can raise:
ZeroDivisionError on a zero weight sum and OverflowError on a component
beyond the float32 range (see the counterexample and
`normalize_weights_overflow_raises`). -/
theorem normalize_weights_ok_of_nonneg_pos_sum (w g : Weights)
    (h0 : 0 ≤ w.w0) (h1 : 0 ≤ w.w1) (h2 : 0 ≤ w.w2) (h3 : 0 ≤ w.w3)
    (hpack : to_gl_float w = .ok g) (hsum : 0 < g.sum) :
    ∃ r, normalize_weights_compatible_with_gl_float w = .ok r := by
  have hg : g = ⟨roundF32 w.w0, roundF32 w.w1, roundF32 w.w2,
      roundF32 w.w3⟩ := by
    unfold to_gl_float at hpack
    split_ifs at hpack
    exact (Except.ok.inj hpack).symm
  subst hg
  unfold normalize_weights_compatible_with_gl_float
  split_ifs with hguard
  · exact ⟨w, rfl⟩
  · simp only [hpack]
    exact normalizeLoop_ok 10 _ (roundF32_nonneg _ h0) (roundF32_nonneg _ h1)
      (roundF32_nonneg _ h2) (roundF32_nonneg _ h3) hsum

/-- Witness for the C4 theorem at the quadruple (1, 1, 1, 1). -/
theorem normalize_weights_ok_witness :
    ∃ r, normalize_weights_compatible_with_gl_float ⟨1, 1, 1, 1⟩ = .ok r := by
  have hb := roundF32_ub_of_le_one 1 (by norm_num) (by norm_num)
  have hn := roundF32_nonneg (1:ℚ) (by norm_num)
  have hp := roundF32_pos 1 (by norm_num)
  have hpack : to_gl_float ⟨1, 1, 1, 1⟩
      = .ok ⟨roundF32 1, roundF32 1, roundF32 1, roundF32 1⟩ := by
    unfold to_gl_float
    rw [if_pos]
    refine ⟨?_, ?_, ?_, ?_⟩ <;>
      (show |roundF32 (1:ℚ)| < 2 ^ 128) <;>
      rw [abs_of_nonneg hn] <;>
      nlinarith [(by norm_num : (4:ℚ) ≤ 2 ^ 128)]
  exact normalize_weights_ok_of_nonneg_pos_sum ⟨1, 1, 1, 1⟩
    ⟨roundF32 1, roundF32 1, roundF32 1, roundF32 1⟩ (by norm_num)
    (by norm_num) (by norm_num) (by norm_num) hpack
    (by
      show 0 < roundF32 1 + roundF32 1 + roundF32 1 + roundF32 1
      linarith)

/-- The model keeps the source's OverflowError path: a component beyond the
float32 range (here 2^200) makes `struct.pack` raise inside `to_gl_float`,
so `normalize_weights_compatible_with_gl_float` raises OverflowError. -/
theorem normalize_weights_overflow_raises :
    normalize_weights_compatible_with_gl_float ⟨2 ^ 200, 0, 0, 0⟩
      = .error .overflow := by
  have hlb := roundF32_lb (2 ^ 200) (by norm_num)
  have hnn := roundF32_nonneg ((2:ℚ) ^ 200) (by norm_num)
  have hbig : ¬(|roundF32 ((2:ℚ) ^ 200)| < 2 ^ 128) := by
    rw [abs_of_nonneg hnn, not_lt]
    calc (2:ℚ) ^ 128 ≤ 2 ^ 200 - 2 ^ 200 / 16777216 := by norm_num
      _ ≤ roundF32 (2 ^ 200) := hlb
  have hto : to_gl_float ⟨2 ^ 200, 0, 0, 0⟩ = .error .overflow := by
    unfold to_gl_float
    rw [if_neg (by
      intro hc
      exact hbig hc.1)]
  unfold normalize_weights_compatible_with_gl_float
  rw [if_neg (by
    show ¬|Weights.sum ⟨2 ^ 200, 0, 0, 0⟩ - 1| < float_epsilon
    norm_num [Weights.sum, float_epsilon])]
  simp only [hto]

/-- Counterexample to C4 as stated: on the all-zero quadruple the sum guard
fails (|0 - 1| ≥ ε), the loop body divides by `sum(weights) = 0`, and Python
raises ZeroDivisionError — the function does not return a value for every
4-tuple of floats. -/
theorem normalize_weights_zero_raises_counterexample :
    normalize_weights_compatible_with_gl_float ⟨0, 0, 0, 0⟩
      = .error .zeroDivision := by
  have hzero : ∀ (fuel : Nat) (w : Weights), w.sum = 0 →
      normalizeLoop (fuel + 1) w = .error .zeroDivision := by
    intro fuel w h
    rw [normalizeLoop_succ, if_pos h]
  have hr0 : roundF32 (0:ℚ) = 0 := by simp [roundF32]
  have hgl : to_gl_float ⟨0, 0, 0, 0⟩ = .ok ⟨0, 0, 0, 0⟩ := by
    unfold to_gl_float
    rw [if_pos]
    · simp [hr0]
    · refine ⟨?_, ?_, ?_, ?_⟩ <;>
        (show |roundF32 (0:ℚ)| < 2 ^ 128) <;>
        rw [hr0] <;>
        norm_num
  unfold normalize_weights_compatible_with_gl_float
  rw [if_neg (by
    show ¬|Weights.sum ⟨0, 0, 0, 0⟩ - 1| < float_epsilon
    norm_num [Weights.sum, float_epsilon])]
  simp only [hgl]
  exact hzero 9 ⟨0, 0, 0, 0⟩ (by norm_num [Weights.sum])
